import Mathlib

/-!
Person and colleague cycle (`src/main.cpp`)

A shallow embedding of the `Person` class and of `main`.

* A `shared_ptr<Person>` is a nullable address (`Ref`).
* The free store is a list of cells; the address of a node is its index.  Each cell
  carries the managed `Person` object together with the use count kept by the
  `shared_ptr` group that owns it.  Every copy of a `shared_ptr` adds one to the count of
  the node it points to and every destruction of a `shared_ptr` takes one away; a node
  whose count reaches zero is destroyed, which destroys its member `colleague_` in turn.
  The cell of a destroyed node stays in the list with count `0`.
* `std::cout` is the sequence of characters inserted so far, together with the part of
  the stream state that `operator<<` on a string reads: the field width, the fill
  character, the adjustment and whether the stream is in a good state.

Member functions are given twice: as pure functions on the object (`Person.*`) and
lifted to the store (`State.*`), where aliasing and ownership can be expressed.
-/

namespace CppTickets

/-- The value of a `shared_ptr<Person>`: `none` is the null pointer, `some a` points to
the node stored at address `a`. -/
abbrev Ref := Option Nat

/-- The null pointer `nullptr`. -/
def nullptr : Ref := none

/-- The literal `0` used where a `shared_ptr<Person>` is expected (`Person("", 0)`): a null
pointer constant, converted to the null `shared_ptr`. -/
def null_constant_0 : Ref := nullptr

/-- The data members of `class Person`. -/
structure Person where
  name_ : String
  colleague_ : Ref
deriving DecidableEq, Repr

/-- `Person(std::string name_, shared_ptr<Person> colleague = nullptr)
      : name_(std::move(name_)), colleague_(colleague) {}` with both arguments given.
In the initialiser the parameter `name_` hides the member, so the member receives the
string passed in. -/
def Person.new (name_ : String) (colleague : Ref) : Person :=
  { name_ := name_, colleague_ := colleague }

/-- The same constructor called with the name only: `colleague` takes its default
argument `nullptr`. -/
def Person.new_name (name_ : String) : Person :=
  Person.new name_ nullptr

/-- `Person() : Person("", 0) {}`: the delegating default constructor. -/
def Person.new_default : Person :=
  Person.new "" null_constant_0

/-- `void set_colleague(shared_ptr<Person> new_colleague) { colleague_ = new_colleague; }`
on the object itself. -/
def Person.set_colleague (self : Person) (new_colleague : Ref) : Person :=
  { self with colleague_ := new_colleague }

/-- The stream `std::cout`: the characters inserted so far (`out`) and the state that the
formatted insertion of a string depends on: `width()`, `fill()`, whether the adjustment in
`flags()` is `left`, and `good()`. -/
structure Ostream where
  out : String
  width : Int
  fill : Char
  left : Bool
  good : Bool
deriving DecidableEq, Repr

/-- The stream `std::cout` when the program starts: nothing written, width `0`, fill
character space, no adjustment set, good state. -/
def Ostream.init : Ostream :=
  { out := "", width := 0, fill := ' ', left := false, good := true }

/-- The padding written by a formatted insertion: `n` copies of the fill character. -/
def ostream_fill (n : Nat) (c : Char) : String :=
  String.mk (List.replicate n c)

/-- `os << str` for a `std::string`, a formatted output function of the standard library.
On a stream that is not in a good state nothing is written.  Otherwise, when `width()` is
greater than the number of characters of `str`, fill characters make up the difference,
after the string when the adjustment is `left` and before it otherwise; then `width()` is
reset to `0`.  The characters of `str` are the `char`s of the `std::string`.  On a
stream that is not good the call also sets `failbit`; the stream stays not good, which is
all that `good` records. -/
def Ostream.insert (os : Ostream) (str : String) : Ostream :=
  if os.good then
    if os.width > str.length then
      if os.left then
        { os with
          out := os.out ++ (str ++ ostream_fill (os.width - str.length).toNat os.fill),
          width := 0 }
      else
        { os with
          out := os.out ++ (ostream_fill (os.width - str.length).toNat os.fill ++ str),
          width := 0 }
    else { os with out := os.out ++ str, width := 0 }
  else os

/-- `void print_name() { std::cout << name_; }`: the stream after the call, given the
stream before it.  The object is not modified and no value is returned. -/
def Person.print_name (self : Person) (cout : Ostream) : Ostream :=
  cout.insert self.name_

/-- A cell of the free store: a `Person` managed by `shared_ptr`, with the use count of
its control block.  A cell whose count is `0` holds a node that has been destroyed. -/
structure Cell where
  obj : Person
  use_count : Nat
deriving DecidableEq, Repr

/-- Program state: the free store and the stream `std::cout`. -/
structure State where
  heap : List Cell
  cout : Ostream
deriving DecidableEq, Repr

/-- The state in which `main` starts: no node allocated, nothing written. -/
def State.init : State := { heap := [], cout := Ostream.init }

/-- Copying a `shared_ptr`: the use count of the node it points to goes up by one. -/
def acquire_cells (h : List Cell) : Ref → List Cell
  | none => h
  | some a =>
    match h[a]? with
    | none => h
    | some c => h.set a { c with use_count := c.use_count + 1 }

/-- Destroying a `shared_ptr`: the use count of the node it points to goes down by one.
When the last owner goes away the node is destroyed, and the destructor of `Person`
destroys the member `colleague_`, which releases the node that one points to in turn.
The first argument bounds the length of this chain (`release_cells_fuel`: the bound used
by `State.release` is never reached).  A pointer to a node already destroyed has no share
left to give up. -/
def release_cells : Nat → List Cell → Ref → List Cell
  | _, h, none => h
  | 0, h, some _ => h
  | fuel + 1, h, some a =>
    match h[a]? with
    | none => h
    | some c =>
      if c.use_count = 0 then h
      else if c.use_count = 1 then
        release_cells fuel (h.set a { c with use_count := 0 }) c.obj.colleague_
      else h.set a { c with use_count := c.use_count - 1 }

/-- Number of nodes that have not been destroyed. -/
def live_count : List Cell → Nat
  | [] => 0
  | c :: h => (if c.use_count = 0 then 0 else 1) + live_count h

/-- Copy of a `shared_ptr` in state `s`. -/
def State.acquire (s : State) (p : Ref) : State :=
  { s with heap := acquire_cells s.heap p }

/-- Destruction of a `shared_ptr` in state `s`.  Every step of the chain of destructions
destroys one more node, so the number of cells bounds its length. -/
def State.release (s : State) (p : Ref) : State :=
  { s with heap := release_cells s.heap.length s.heap p }

/-- `shared_ptr<Person> x(new Person(name_, colleague))`: the argument is copied into the
parameter, the parameter is copied into the member, the new node is put on the free
store with one owner (the `shared_ptr` returned), and the parameter is destroyed. -/
def State.new_Person (s : State) (name_ : String) (colleague : Ref) : State × Ref :=
  let s1 := s.acquire colleague
  let s2 := s1.acquire colleague
  let a := s2.heap.length
  let s3 : State :=
    { s2 with heap := s2.heap ++ [{ obj := Person.new name_ colleague, use_count := 1 }] }
  (s3.release colleague, some a)

/-- `shared_ptr<Person> x(new Person(name_))`: the colleague defaults to `nullptr`. -/
def State.new_Person_name (s : State) (name_ : String) : State × Ref :=
  s.new_Person name_ nullptr

/-- `shared_ptr<Person> x(new Person())`. -/
def State.new_Person_default (s : State) : State × Ref :=
  s.new_Person "" null_constant_0

/-- `A->set_colleague(new_colleague)` for the node `A` at address `a`: the argument is
copied into the by-value parameter, the assignment `colleague_ = new_colleague` takes a
share in the new node, stores the pointer and gives up the share in the node the member
pointed to before, and the parameter is destroyed on return. -/
def State.set_colleague (s : State) (a : Nat) (new_colleague : Ref) : State :=
  let s2 := (s.acquire new_colleague).acquire new_colleague
  match s2.heap[a]? with
  | none => s
  | some c =>
    let s3 : State :=
      { s2 with heap := s2.heap.set a { c with obj := c.obj.set_colleague new_colleague } }
    (s3.release c.obj.colleague_).release new_colleague

/-- `A->print_name()` for the node `A` at address `a`. -/
def State.print_name (s : State) (a : Nat) : State :=
  match s.heap[a]? with
  | none => s
  | some c => { s with cout := c.obj.print_name s.cout }

/-- The node stored at address `a`, if there is one. -/
def State.node (s : State) (a : Nat) : Option Person :=
  (s.heap[a]?).map Cell.obj

/-- The use count of the node at address `a`. -/
def State.use_count (s : State) (a : Nat) : Option Nat :=
  (s.heap[a]?).map Cell.use_count

/-- Following the colleague link: `p->colleague_`. -/
def State.colleague (s : State) : Ref → Ref
  | none => none
  | some a =>
    match s.heap[a]? with
    | none => none
    | some c => c.obj.colleague_

/-- The statements of `main`, up to the closing brace: the state reached and the values
of the local variables `first_person` and `second_person`. -/
def main_body (s : State) : State × Ref × Ref :=
  let (s1, first_person) := s.new_Person_name "Alice"
  let (s2, second_person) := s1.new_Person_name "Bob"
  let s3 :=
    match first_person with
    | none => s2
    | some a => s2.set_colleague a second_person
  let s4 :=
    match second_person with
    | none => s3
    | some b => s3.set_colleague b first_person
  (s4, first_person, second_person)

/-- The whole of `main`: at the closing brace the local variables are destroyed in the
reverse order of their declaration. -/
def main (s : State) : State :=
  let (s4, first_person, second_person) := main_body s
  (s4.release second_person).release first_person

/-- Following the colleague link `n` times. -/
def State.follow (s : State) : Nat → Ref → Ref
  | 0, r => r
  | n + 1, r => s.follow n (s.colleague r)

/-- The number of `shared_ptr` holders of the node at address `a`: the local variables in
`locals` that point to it, and the `colleague_` members of the nodes not yet destroyed
that point to it. -/
def State.holders (s : State) (locals : List Ref) (a : Nat) : Nat :=
  locals.countP (fun r => r == some a) +
    s.heap.countP (fun c => c.use_count != 0 && c.obj.colleague_ == some a)

/-! ## The free store: what copying and destroying a `shared_ptr` leave alone -/

theorem map_obj_set (h : List Cell) (a : Nat) (c d : Cell)
    (hc : h[a]? = some c) (hd : d.obj = c.obj) :
    (h.set a d).map Cell.obj = h.map Cell.obj := by
  apply List.ext_getElem?
  intro i
  by_cases hi : a = i
  · subst hi
    simp [List.getElem?_set, hc, hd]
    by_contra hlt
    rw [List.getElem?_eq_none (Nat.le_of_not_lt hlt)] at hc
    cases hc
  · simp [List.getElem?_set, hi]

theorem acquire_cells_map_obj (h : List Cell) (p : Ref) :
    (acquire_cells h p).map Cell.obj = h.map Cell.obj := by
  cases p with
  | none => rfl
  | some a =>
    simp only [acquire_cells]
    split
    · rfl
    · next c hc => exact map_obj_set h a c _ hc rfl

theorem release_cells_map_obj (fuel : Nat) :
    ∀ (h : List Cell) (p : Ref), (release_cells fuel h p).map Cell.obj = h.map Cell.obj := by
  induction fuel with
  | zero =>
    intro h p
    cases p <;> rfl
  | succ f ih =>
    intro h p
    cases p with
    | none => rfl
    | some a =>
      simp only [release_cells]
      split
      · rfl
      · next c hc =>
        split
        · rfl
        · split
          · rw [ih]
            exact map_obj_set h a c _ hc rfl
          · exact map_obj_set h a c _ hc rfl

theorem node_eq_map_obj (s : State) (a : Nat) : s.node a = (s.heap.map Cell.obj)[a]? := by
  simp [State.node]

theorem acquire_cout (s : State) (p : Ref) : (s.acquire p).cout = s.cout := rfl

theorem release_cout (s : State) (p : Ref) : (s.release p).cout = s.cout := rfl

theorem acquire_map_obj (s : State) (p : Ref) :
    (s.acquire p).heap.map Cell.obj = s.heap.map Cell.obj :=
  acquire_cells_map_obj s.heap p

theorem release_map_obj (s : State) (p : Ref) :
    (s.release p).heap.map Cell.obj = s.heap.map Cell.obj :=
  release_cells_map_obj s.heap.length s.heap p

theorem acquire_node (s : State) (p : Ref) (a : Nat) : (s.acquire p).node a = s.node a := by
  rw [node_eq_map_obj, node_eq_map_obj, acquire_map_obj]

theorem release_node (s : State) (p : Ref) (a : Nat) : (s.release p).node a = s.node a := by
  rw [node_eq_map_obj, node_eq_map_obj, release_map_obj]

theorem length_eq_of_map_obj {h k : List Cell} (e : h.map Cell.obj = k.map Cell.obj) :
    h.length = k.length := by
  have := congrArg List.length e
  simpa using this

/-- The objects on the free store after `A->set_colleague(p)`: the object at the address
of `A` has been replaced by `A.set_colleague p`, nothing else has changed. -/
theorem set_colleague_map_obj (s : State) (a : Nat) (p : Ref) :
    (s.set_colleague a p).heap.map Cell.obj =
      match s.node a with
      | none => s.heap.map Cell.obj
      | some A => (s.heap.map Cell.obj).set a (A.set_colleague p) := by
  have hn : ((s.acquire p).acquire p).node a = s.node a := by
    rw [acquire_node, acquire_node]
  unfold State.set_colleague
  simp only
  cases hc : ((s.acquire p).acquire p).heap[a]? with
  | none =>
    simp only [State.node, hc, Option.map_none'] at hn
    simp only [State.node, ← hn]
  | some c =>
    simp only [State.node, hc, Option.map_some'] at hn
    simp only [release_map_obj, List.map_set, acquire_map_obj]
    simp only [State.node, ← hn]

theorem set_colleague_cout (s : State) (a : Nat) (p : Ref) :
    (s.set_colleague a p).cout = s.cout := by
  unfold State.set_colleague
  simp only
  split <;> rfl

theorem set_colleague_node_self (s : State) (a : Nat) (p : Ref) :
    (s.set_colleague a p).node a = (s.node a).map (fun A => A.set_colleague p) := by
  rw [node_eq_map_obj, set_colleague_map_obj]
  cases hA : s.node a with
  | none => simpa [node_eq_map_obj] using hA
  | some A =>
    have hlt : a < (s.heap.map Cell.obj).length := by
      rw [node_eq_map_obj] at hA
      by_contra hge
      rw [List.getElem?_eq_none (Nat.le_of_not_lt hge)] at hA
      cases hA
    have hlt2 : a < s.heap.length := by simpa using hlt
    simp [List.getElem?_set, hlt2]

theorem set_colleague_node_other (s : State) (a : Nat) (p : Ref) (b : Nat) (hb : b ≠ a) :
    (s.set_colleague a p).node b = s.node b := by
  rw [node_eq_map_obj, set_colleague_map_obj]
  cases hA : s.node a with
  | none => simp [node_eq_map_obj]
  | some A => simp [List.getElem?_set, Ne.symm hb, node_eq_map_obj]

theorem print_name_heap (s : State) (a : Nat) : (s.print_name a).heap = s.heap := by
  unfold State.print_name
  split <;> rfl

theorem colleague_eq_node (s : State) (a : Nat) :
    s.colleague (some a) = ((s.node a).map Person.colleague_).getD none := by
  simp only [State.colleague, State.node]
  cases s.heap[a]? <;> rfl

/-! ## The chain of destructions is never cut short -/

theorem live_count_le_length (h : List Cell) : live_count h ≤ h.length := by
  induction h with
  | nil => simp [live_count]
  | cons c h ih =>
    simp only [live_count, List.length_cons]
    split <;> omega

theorem live_count_eq_zero :
    ∀ (h : List Cell) (a : Nat) (c : Cell), live_count h = 0 → h[a]? = some c →
      c.use_count = 0 := by
  intro h
  induction h with
  | nil => intro a c _ hc; simp at hc
  | cons d h ih =>
    intro a c hz hc
    simp only [live_count] at hz
    cases a with
    | zero =>
      simp at hc
      subst hc
      by_contra hne
      simp [hne] at hz
    | succ a =>
      simp at hc
      exact ih a c (by omega) hc

theorem live_count_set_zero :
    ∀ (h : List Cell) (a : Nat) (c : Cell), h[a]? = some c → c.use_count ≠ 0 →
      live_count (h.set a { c with use_count := 0 }) + 1 = live_count h := by
  intro h
  induction h with
  | nil => intro a c hc; simp at hc
  | cons d h ih =>
    intro a c hc hne
    cases a with
    | zero =>
      simp at hc
      subst hc
      simp [live_count, hne]
      omega
    | succ a =>
      simp at hc
      have := ih a c hc hne
      simp only [List.set_cons_succ, live_count]
      omega

/-- One more unit of fuel changes nothing once the fuel covers the nodes still alive. -/
theorem release_cells_fuel_succ (fuel : Nat) :
    ∀ (h : List Cell) (p : Ref), live_count h ≤ fuel →
      release_cells (fuel + 1) h p = release_cells fuel h p := by
  induction fuel with
  | zero =>
    intro h p hl
    cases p with
    | none => rfl
    | some a =>
      simp only [release_cells]
      split
      · rfl
      · next c hc =>
        have hz := live_count_eq_zero h a c (by omega) hc
        simp [hz]
  | succ f ih =>
    intro h p hl
    cases p with
    | none => rfl
    | some a =>
      rw [release_cells]
      conv => rhs; rw [release_cells]
      split
      · rfl
      · next c hc =>
        split
        · rfl
        · next hne =>
          split
          · apply ih
            have := live_count_set_zero h a c hc hne
            omega
          · rfl

/-- With at least as much fuel as nodes alive, the result does not depend on the fuel:
`State.release` runs every chain of destructions to its end. -/
theorem release_cells_fuel (h : List Cell) (p : Ref) (k : Nat) :
    release_cells (live_count h + k) h p = release_cells (live_count h) h p := by
  induction k with
  | zero => rfl
  | succ k ih =>
    rw [← ih, ← Nat.add_assoc]
    exact release_cells_fuel_succ _ h p (by omega)

theorem release_heap_fuel (s : State) (p : Ref) (k : Nat) :
    release_cells (s.heap.length + k) s.heap p = (s.release p).heap := by
  obtain ⟨j, hj⟩ := Nat.exists_eq_add_of_le (live_count_le_length s.heap)
  simp only [State.release]
  rw [hj, Nat.add_assoc, release_cells_fuel, release_cells_fuel]

/-! ## Construction on the free store -/

theorem new_Person_cout (s : State) (n : String) (c : Ref) :
    (s.new_Person n c).1.cout = s.cout :=
  rfl

theorem new_Person_map_obj (s : State) (n : String) (c : Ref) :
    (s.new_Person n c).1.heap.map Cell.obj = s.heap.map Cell.obj ++ [Person.new n c] := by
  simp only [State.new_Person, release_map_obj, List.map_append, acquire_map_obj]
  rfl

theorem new_Person_ref (s : State) (n : String) (c : Ref) :
    (s.new_Person n c).2 = some s.heap.length := by
  simp only [State.new_Person]
  rw [length_eq_of_map_obj (acquire_map_obj _ _), length_eq_of_map_obj (acquire_map_obj _ _)]

theorem new_Person_node_new (s : State) (n : String) (c : Ref) :
    (s.new_Person n c).1.node s.heap.length = some (Person.new n c) := by
  rw [node_eq_map_obj, new_Person_map_obj]
  simp [List.getElem?_append_right]

theorem new_Person_node_old (s : State) (n : String) (c : Ref) (b : Nat)
    (hb : b < s.heap.length) : (s.new_Person n c).1.node b = s.node b := by
  rw [node_eq_map_obj, new_Person_map_obj, node_eq_map_obj]
  rw [List.getElem?_append_left (by simpa using hb)]

theorem main_cout (s : State) : (main s).cout = s.cout := by
  simp only [main, main_body, State.new_Person_name, State.new_Person, release_cout,
    set_colleague_cout, acquire_cout]

theorem set_colleague_node_some (s : State) (a : Nat) (A : Person) (p : Ref)
    (hA : s.node a = some A) :
    (s.set_colleague a p).node a = some { name_ := A.name_, colleague_ := p } := by
  rw [set_colleague_node_self, hA]
  rfl

theorem set_colleague_colleague (s : State) (a : Nat) (A : Person) (p : Ref)
    (hA : s.node a = some A) : (s.set_colleague a p).colleague (some a) = p := by
  rw [colleague_eq_node, set_colleague_node_some s a A p hA]
  rfl

theorem print_name_cout (s : State) (a : Nat) (A : Person) (hA : s.node a = some A) :
    (s.print_name a).cout = s.cout.insert A.name_ := by
  simp only [State.node] at hA
  unfold State.print_name
  cases hc : s.heap[a]? with
  | none => simp [hc] at hA
  | some c =>
    simp only [hc, Option.map_some', Option.some.injEq] at hA
    simp only [Person.print_name, hA]

/-! ## The run of `main` from any state -/

theorem release_cells_none (f : Nat) (h : List Cell) : release_cells f h none = h := by
  cases f <;> rfl

theorem acquire_cells_append (h t : List Cell) (i : Nat) :
    acquire_cells (h ++ t) (some (h.length + i)) = h ++ acquire_cells t (some i) := by
  simp only [acquire_cells, List.getElem?_append_right (Nat.le_add_right _ _),
    Nat.add_sub_cancel_left]
  cases t[i]? with
  | none => rfl
  | some c => simp [List.set_append]

theorem release_cells_append (f : Nat) (h t : List Cell) (i : Nat) (c : Cell)
    (hc : t[i]? = some c) (h2 : 2 ≤ c.use_count) :
    release_cells (f + 1) (h ++ t) (some (h.length + i))
      = h ++ t.set i { c with use_count := c.use_count - 1 } := by
  have h0 : c.use_count ≠ 0 := by omega
  have h1 : c.use_count ≠ 1 := by omega
  simp [release_cells, List.getElem?_append_right (Nat.le_add_right _ _), hc, h0, h1,
    List.set_append]

theorem new_Person_name_eq (s : State) (n : String) :
    s.new_Person_name n =
      ({ heap := s.heap ++ [{ obj := { name_ := n, colleague_ := none }, use_count := 1 }],
         cout := s.cout }, some s.heap.length) := by
  simp only [State.new_Person_name, State.new_Person, nullptr, State.acquire, acquire_cells,
    State.release, release_cells_none, Person.new]

theorem set_colleague_fresh (h : List Cell) (o : Ostream) (i j : Nat) (t : List Cell)
    (A B : Cell) (hi : t[i]? = some A) (hj : t[j]? = some B) (hij : i ≠ j)
    (hA : A.obj.colleague_ = none) :
    State.set_colleague { heap := h ++ t, cout := o } (h.length + i) (some (h.length + j)) =
      { heap := h ++ (t.set i { A with obj := A.obj.set_colleague (some (h.length + j)) }).set j
          { B with use_count := B.use_count + 1 },
        cout := o } := by
  have hlt : j < t.length := by
    by_contra hge
    rw [List.getElem?_eq_none (Nat.le_of_not_lt hge)] at hj
    cases hj
  have hlti : i < t.length := by
    by_contra hge
    rw [List.getElem?_eq_none (Nat.le_of_not_lt hge)] at hi
    cases hi
  have e1 : acquire_cells (acquire_cells (h ++ t) (some (h.length + j))) (some (h.length + j))
      = h ++ t.set j { B with use_count := B.use_count + 2 } := by
    rw [acquire_cells_append, acquire_cells_append]
    simp [acquire_cells, hj, hlt]
  simp only [State.set_colleague, State.acquire, e1,
    List.getElem?_append_right (Nat.le_add_right _ _), Nat.add_sub_cancel_left,
    List.getElem?_set_ne (Ne.symm hij), hi, State.release, hA, release_cells_none]
  congr 1
  rw [List.set_append]
  simp only [Nat.lt_irrefl, Nat.add_sub_cancel_left, if_false, Nat.not_lt.mpr (Nat.le_add_right _ _)]
  rw [List.length_append, Nat.add_comm h.length, List.length_set, List.length_set]
  obtain ⟨k, hk⟩ : ∃ k, t.length = k + 1 := ⟨t.length - 1, by omega⟩
  rw [hk, Nat.add_assoc, Nat.add_comm 1, ← Nat.add_assoc]
  rw [release_cells_append _ h _ j { B with use_count := B.use_count + 2 }]
  · rw [List.set_comm _ _ _ (Ne.symm hij), List.set_set]
    rfl
  · simp [List.getElem?_set, hij, hlt]
  · simp

theorem main_body_eq (s : State) :
    main_body s =
      ({ heap := s.heap ++
          [{ obj := { name_ := "Alice", colleague_ := some (s.heap.length + 1) },
             use_count := 2 },
           { obj := { name_ := "Bob", colleague_ := some s.heap.length }, use_count := 2 }],
         cout := s.cout }, some s.heap.length, some (s.heap.length + 1)) := by
  have e1 : State.set_colleague
      { heap := s.heap ++
          [{ obj := { name_ := "Alice", colleague_ := none }, use_count := 1 },
           { obj := { name_ := "Bob", colleague_ := none }, use_count := 1 }],
        cout := s.cout } s.heap.length (some (s.heap.length + 1)) =
      { heap := s.heap ++
          [{ obj := { name_ := "Alice", colleague_ := some (s.heap.length + 1) },
             use_count := 1 },
           { obj := { name_ := "Bob", colleague_ := none }, use_count := 2 }],
        cout := s.cout } :=
    set_colleague_fresh s.heap s.cout 0 1
      [{ obj := { name_ := "Alice", colleague_ := none }, use_count := 1 },
       { obj := { name_ := "Bob", colleague_ := none }, use_count := 1 }]
      { obj := { name_ := "Alice", colleague_ := none }, use_count := 1 }
      { obj := { name_ := "Bob", colleague_ := none }, use_count := 1 }
      rfl rfl (by decide) rfl
  have e2 : State.set_colleague
      { heap := s.heap ++
          [{ obj := { name_ := "Alice", colleague_ := some (s.heap.length + 1) },
             use_count := 1 },
           { obj := { name_ := "Bob", colleague_ := none }, use_count := 2 }],
        cout := s.cout } (s.heap.length + 1) (some s.heap.length) =
      { heap := s.heap ++
          [{ obj := { name_ := "Alice", colleague_ := some (s.heap.length + 1) },
             use_count := 2 },
           { obj := { name_ := "Bob", colleague_ := some s.heap.length }, use_count := 2 }],
        cout := s.cout } :=
    set_colleague_fresh s.heap s.cout 1 0
      [{ obj := { name_ := "Alice", colleague_ := some (s.heap.length + 1) }, use_count := 1 },
       { obj := { name_ := "Bob", colleague_ := none }, use_count := 2 }]
      { obj := { name_ := "Bob", colleague_ := none }, use_count := 2 }
      { obj := { name_ := "Alice", colleague_ := some (s.heap.length + 1) }, use_count := 1 }
      rfl rfl (by decide) rfl
  simp only [main_body, new_Person_name_eq, List.length_append, List.length_singleton,
    List.append_assoc, List.singleton_append]
  rw [e1, e2]

theorem main_eq (s : State) :
    main s =
      { heap := s.heap ++
          [{ obj := { name_ := "Alice", colleague_ := some (s.heap.length + 1) },
             use_count := 1 },
           { obj := { name_ := "Bob", colleague_ := some s.heap.length }, use_count := 1 }],
        cout := s.cout } := by
  have r1 : release_cells (s.heap.length + 1 + 1)
      (s.heap ++
        [{ obj := { name_ := "Alice", colleague_ := some (s.heap.length + 1) },
           use_count := 2 },
         { obj := { name_ := "Bob", colleague_ := some s.heap.length }, use_count := 2 }])
      (some (s.heap.length + 1)) =
      s.heap ++
        [{ obj := { name_ := "Alice", colleague_ := some (s.heap.length + 1) },
           use_count := 2 },
         { obj := { name_ := "Bob", colleague_ := some s.heap.length }, use_count := 1 }] :=
    release_cells_append _ s.heap _ 1
      { obj := { name_ := "Bob", colleague_ := some s.heap.length }, use_count := 2 }
      rfl (Nat.le_refl 2)
  have r2 : release_cells (s.heap.length + 1 + 1)
      (s.heap ++
        [{ obj := { name_ := "Alice", colleague_ := some (s.heap.length + 1) },
           use_count := 2 },
         { obj := { name_ := "Bob", colleague_ := some s.heap.length }, use_count := 1 }])
      (some s.heap.length) =
      s.heap ++
        [{ obj := { name_ := "Alice", colleague_ := some (s.heap.length + 1) },
           use_count := 1 },
         { obj := { name_ := "Bob", colleague_ := some s.heap.length }, use_count := 1 }] :=
    release_cells_append _ s.heap _ 0
      { obj := { name_ := "Alice", colleague_ := some (s.heap.length + 1) }, use_count := 2 }
      rfl (Nat.le_refl 2)
  simp only [main, main_body_eq, State.release, List.length_append, List.length_cons,
    List.length_nil, Nat.zero_add, ← Nat.add_assoc]
  rw [r1]
  simp only [List.length_append, List.length_cons, List.length_nil, Nat.zero_add,
    ← Nat.add_assoc]
  rw [r2]

/-! ## Formatted insertion into `std::cout` -/

theorem ostream_fill_length (n : Nat) (c : Char) : (ostream_fill n c).length = n := by
  simp [ostream_fill, String.length]

theorem string_append_right_cancel (x y z : String) (h : x ++ y = x ++ z) : y = z := by
  have hd := congrArg String.data h
  rw [String.data_append, String.data_append] at hd
  exact String.ext (List.append_cancel_left hd)

theorem string_self_eq_append (x y : String) : x = x ++ y ↔ y = "" := by
  constructor
  · intro h
    have hd := congrArg String.data h
    rw [String.data_append] at hd
    exact String.ext (List.self_eq_append_right.mp hd)
  · intro h
    rw [h, String.append_empty]

theorem insert_not_good (os : Ostream) (str : String) (hg : os.good = false) :
    os.insert str = os := by
  simp [Ostream.insert, hg]

theorem insert_fits (os : Ostream) (str : String) (hg : os.good = true)
    (hw : os.width ≤ str.length) :
    os.insert str = { os with out := os.out ++ str, width := 0 } := by
  simp [Ostream.insert, hg, Int.not_lt.mpr hw]

theorem insert_pads (os : Ostream) (str : String) (hg : os.good = true)
    (hw : (str.length : Int) < os.width) :
    (os.insert str).out = os.out ++
      (if os.left then str ++ ostream_fill (os.width - str.length).toNat os.fill
       else ostream_fill (os.width - str.length).toNat os.fill ++ str) := by
  simp only [Ostream.insert, hg, if_true, gt_iff_lt, hw]
  split <;> rfl

theorem insert_pads_ne (os : Ostream) (str : String) (hg : os.good = true)
    (hw : (str.length : Int) < os.width) : (os.insert str).out ≠ os.out ++ str := by
  intro h
  rw [insert_pads os str hg hw] at h
  have h2 := congrArg String.length (string_append_right_cancel _ _ _ h)
  have hpos : 0 < (os.width - str.length).toNat := by omega
  split at h2 <;> simp [String.length_append, ostream_fill_length] at h2 <;> omega

/-- The insertion writes exactly the characters of the string in two cases only: the
stream is good and its width does not exceed the length of the string, or the stream is
not good and the string is empty. -/
theorem insert_out_iff (os : Ostream) (str : String) :
    (os.insert str).out = os.out ++ str ↔
      (os.good = true ∧ os.width ≤ str.length) ∨ (os.good = false ∧ str = "") := by
  cases hg : os.good with
  | false =>
    rw [insert_not_good os str hg, string_self_eq_append]
    simp
  | true =>
    by_cases hw : os.width ≤ str.length
    · rw [insert_fits os str hg hw]
      simp [hw]
    · have hlt : (str.length : Int) < os.width := Int.not_le.mp hw
      have := insert_pads_ne os str hg hlt
      simp [this, hw]

/-! ## Which nodes exist -/

theorem insert_empty_out_iff (os : Ostream) :
    (os.insert "").out = os.out ↔ os.good = false ∨ os.width ≤ 0 := by
  have h := insert_out_iff os ""
  rw [String.append_empty] at h
  rw [h]
  cases os.good <;> simp

theorem insert_empty_pads (os : Ostream) (hg : os.good = true) (hw : 0 < os.width) :
    (os.insert "").out = os.out ++ ostream_fill os.width.toNat os.fill := by
  have h := insert_pads os "" hg (by simpa using hw)
  rw [h]
  split <;> simp

/-! ## The claims -/

/-- C1: for every node `A` (stored at address `a`, with any previous colleague) and every
shared reference `p` (null, a reference to another node, or a reference to `A` itself),
after `A.set_colleague(p)` the node at `a` is `A` with its colleague field equal to `p`,
and following the colleague link from `A` gives `p`.  The operation is a total function:
there is no failure case. -/
theorem set_colleague_stores (s : State) (a : Nat) (A : Person) (p : Ref)
    (hA : s.node a = some A) :
    (A.set_colleague p).colleague_ = p ∧
    (s.set_colleague a p).node a = some { name_ := A.name_, colleague_ := p } ∧
    (s.set_colleague a p).colleague (some a) = p := by
  exact ⟨rfl, set_colleague_node_some s a A p hA, set_colleague_colleague s a A p hA⟩

theorem set_colleague_stores_witness :
    (main_body State.init).1.node 0 = some { name_ := "Alice", colleague_ := some 1 } ∧
    (((main_body State.init).1.set_colleague 0 (some 0)).node 0
        = some { name_ := "Alice", colleague_ := some 0 } ∧
      ((main_body State.init).1.set_colleague 0 (some 0)).colleague (some 0) = some 0) :=
  ⟨by decide,
   (set_colleague_stores (main_body State.init).1 0
      { name_ := "Alice", colleague_ := some 1 } (some 0) (by decide)).2⟩

/-- C2: for every two nodes `A` and `B` (at addresses `a` and `b`, distinct or equal),
after `A.set_colleague(B)` followed by `B.set_colleague(A)` the colleague of `A` is `B`,
the colleague of `B` is `A`, and following the colleague of `A` and then the colleague of
that node gives `A` again. -/
theorem mutual_colleagues (s : State) (a b : Nat) (A B : Person)
    (hA : s.node a = some A) (hB : s.node b = some B) :
    ((s.set_colleague a (some b)).set_colleague b (some a)).colleague (some a) = some b ∧
    ((s.set_colleague a (some b)).set_colleague b (some a)).colleague (some b) = some a ∧
    ((s.set_colleague a (some b)).set_colleague b (some a)).colleague
      (((s.set_colleague a (some b)).set_colleague b (some a)).colleague (some a)) = some a := by
  have h1a : (s.set_colleague a (some b)).node a
      = some { name_ := A.name_, colleague_ := some b } :=
    set_colleague_node_some s a A (some b) hA
  have hb : ((s.set_colleague a (some b)).set_colleague b (some a)).colleague (some b)
      = some a := by
    by_cases hab : b = a
    · subst hab
      exact set_colleague_colleague _ b _ (some b) h1a
    · have h1b : (s.set_colleague a (some b)).node b = some B := by
        rw [set_colleague_node_other s a (some b) b hab, hB]
      exact set_colleague_colleague _ b B (some a) h1b
  have ha : ((s.set_colleague a (some b)).set_colleague b (some a)).colleague (some a)
      = some b := by
    by_cases hab : a = b
    · subst hab
      exact hb
    · rw [colleague_eq_node, set_colleague_node_other _ b (some a) a hab, h1a]
      rfl
  refine ⟨ha, hb, ?_⟩
  rw [ha, hb]

theorem mutual_colleagues_witness :
    ((State.init.new_Person_name "Alice").1.new_Person_name "Bob").1.node 0
      = some { name_ := "Alice", colleague_ := none } ∧
    ((State.init.new_Person_name "Alice").1.new_Person_name "Bob").1.node 1
      = some { name_ := "Bob", colleague_ := none } ∧
    (main_body State.init).2 = (some 0, some 1) ∧
    (main_body State.init).1.colleague (some 0) = some 1 ∧
    (main_body State.init).1.colleague (some 1) = some 0 ∧
    (main_body State.init).1.colleague ((main_body State.init).1.colleague (some 0))
      = some 0 :=
  ⟨by decide, by decide, by decide,
   mutual_colleagues ((State.init.new_Person_name "Alice").1.new_Person_name "Bob").1 0 1
      { name_ := "Alice", colleague_ := none } { name_ := "Bob", colleague_ := none }
      (by decide) (by decide)⟩

/-- C3: for every string `n`, the empty string included, constructing a `Person` with the
name `n` and no colleague argument gives a node named `n` whose colleague is null, both
as an object and once placed on the free store (following its colleague link gives the
null pointer). -/
theorem new_name_colleague_null (n : String) (s : State) :
    (Person.new_name n).colleague_ = none ∧
    (Person.new_name "").colleague_ = none ∧
    (s.new_Person_name n).2 = some s.heap.length ∧
    (s.new_Person_name n).1.node s.heap.length = some { name_ := n, colleague_ := none } ∧
    (s.new_Person_name n).1.colleague (s.new_Person_name n).2 = none := by
  have hr : (s.new_Person_name n).2 = some s.heap.length := new_Person_ref s n nullptr
  have hn : (s.new_Person_name n).1.node s.heap.length
      = some { name_ := n, colleague_ := none } := new_Person_node_new s n nullptr
  refine ⟨rfl, rfl, hr, hn, ?_⟩
  rw [hr, colleague_eq_node, hn]
  rfl

/-- C5: reference counts in `main`.  After the two constructions each node has one owner;
after the two `set_colleague` calls each of the two nodes has use count 2 (its local
variable and the colleague field of the other node); destroying `second_person` and then
`first_person` at the closing brace leaves each node with use count 1.  No count reaches
zero at any of these points, so neither node is destroyed: both are still alive, and
still linked to each other, when `main` returns.  At both points the use count of a node
is the number of its holders.  The counts of the two nodes are the same whatever the free
store holds when `main` starts. -/
theorem main_use_counts :
    (((State.init.new_Person_name "Alice").1.new_Person_name "Bob").1.heap.map Cell.use_count
      = [1, 1] ∧
    (main_body State.init).2 = (some 0, some 1) ∧
    (main_body State.init).1.use_count 0 = some 2 ∧
    (main_body State.init).1.use_count 1 = some 2 ∧
    ((main_body State.init).1.release (some 1)).heap.map Cell.use_count = [2, 1] ∧
    (main State.init).use_count 0 = some 1 ∧
    (main State.init).use_count 1 = some 1 ∧
    (main State.init).heap.length = 2 ∧
    live_count (main State.init).heap = 2 ∧
    (main State.init).colleague (some 0) = some 1 ∧
    (main State.init).colleague (some 1) = some 0 ∧
    (main_body State.init).1.holders [some 0, some 1] 0 = 2 ∧
    (main_body State.init).1.holders [some 0, some 1] 1 = 2 ∧
    (main State.init).holders [] 0 = 1 ∧
    (main State.init).holders [] 1 = 1) ∧
    (∀ s : State,
      (main_body s).2 = (some s.heap.length, some (s.heap.length + 1)) ∧
      (main_body s).1.use_count s.heap.length = some 2 ∧
      (main_body s).1.use_count (s.heap.length + 1) = some 2 ∧
      (main s).use_count s.heap.length = some 1 ∧
      (main s).use_count (s.heap.length + 1) = some 1) := by
  refine ⟨by decide, fun s => ?_⟩
  rw [main_body_eq, main_eq]
  have h0 : s.heap.length - s.heap.length = 0 := Nat.sub_self _
  have h1 : s.heap.length + 1 - s.heap.length = 1 := by omega
  simp [State.use_count, List.getElem?_append_right (Nat.le_refl _),
    List.getElem?_append_right (Nat.le_add_right _ 1), h0, h1]

/-- C8: for every string `n` and every shared reference `c` (null or not), constructing a
`Person` with `(n, c)` gives a node whose name is exactly `n` and whose colleague is
exactly `c`; nothing is validated or altered, and the empty name is accepted.  On the
free store the new node is found, with these two fields, at the address returned. -/
theorem new_stores_arguments (n : String) (c : Ref) (s : State) :
    (Person.new n c).name_ = n ∧
    (Person.new n c).colleague_ = c ∧
    (Person.new "" c).name_ = "" ∧
    (s.new_Person n c).2 = some s.heap.length ∧
    (s.new_Person n c).1.node s.heap.length = some { name_ := n, colleague_ := c } ∧
    (s.new_Person n c).1.colleague (s.new_Person n c).2 = c := by
  have hn : (s.new_Person n c).1.node s.heap.length
      = some { name_ := n, colleague_ := c } := new_Person_node_new s n c
  refine ⟨rfl, rfl, rfl, new_Person_ref s n c, hn, ?_⟩
  rw [new_Person_ref, colleague_eq_node, hn]
  rfl

/-- C9: a node may be its own colleague.  For every node `A`, `A.set_colleague(A)` leaves
the colleague of `A` equal to `A`, its name unchanged, and following the colleague link
any number of times from `A` gives `A`. -/
theorem self_colleague (s : State) (a : Nat) (A : Person) (hA : s.node a = some A) :
    (s.set_colleague a (some a)).node a = some { name_ := A.name_, colleague_ := some a } ∧
    (s.set_colleague a (some a)).colleague (some a) = some a ∧
    (∀ n : Nat, (s.set_colleague a (some a)).follow n (some a) = some a) := by
  have h := set_colleague_colleague s a A (some a) hA
  refine ⟨set_colleague_node_some s a A (some a) hA, h, ?_⟩
  intro n
  induction n with
  | zero => rfl
  | succ n ih =>
    simp only [State.follow]
    rw [h]
    exact ih

theorem self_colleague_witness :
    (State.init.new_Person_name "Alice").1.node 0
      = some { name_ := "Alice", colleague_ := none } ∧
    ((State.init.new_Person_name "Alice").1.set_colleague 0 (some 0)).node 0
      = some { name_ := "Alice", colleague_ := some 0 } ∧
    ((State.init.new_Person_name "Alice").1.set_colleague 0 (some 0)).follow 5 (some 0)
      = some 0 :=
  ⟨by decide,
   (self_colleague (State.init.new_Person_name "Alice").1 0
      { name_ := "Alice", colleague_ := none } (by decide)).1,
   (self_colleague (State.init.new_Person_name "Alice").1 0
      { name_ := "Alice", colleague_ := none } (by decide)).2.2 5⟩

/-- C4 (amended): for every node with name `n`, when standard output is in a good state
and its field width is not greater than the number of characters of `n` (the width is `0`
unless the caller has set one), `print_name` appends exactly the characters of `n` to
standard output, nothing before and nothing after them; it changes nothing on the free
store and its only result is the new state.  With width `0` the output grows by exactly
"Alice" for the name "Alice" and does not grow for the empty name.  These are the only
cases in which exactly the characters of `n` are written, apart from the empty name on a
stream that is not good: with a greater width the name is padded with fill characters up
to the width, and on a stream that is not in a good state nothing is written. -/
theorem print_name_appends (s : State) (a : Nat) (A : Person) (hA : s.node a = some A) :
    (s.print_name a).cout = A.print_name s.cout ∧
    (s.print_name a).heap = s.heap ∧
    (s.cout.good = true → s.cout.width ≤ A.name_.length →
      (s.print_name a).cout.out = s.cout.out ++ A.name_ ∧
      (s.print_name a).cout.out.data = s.cout.out.data ++ A.name_.data) ∧
    (s.cout.good = true → s.cout.width ≤ 0 → A.name_ = "Alice" →
      (s.print_name a).cout.out = s.cout.out ++ "Alice") ∧
    (s.cout.good = true → s.cout.width ≤ 0 → A.name_ = "" →
      (s.print_name a).cout.out = s.cout.out) ∧
    ((s.print_name a).cout.out = s.cout.out ++ A.name_ ↔
      (s.cout.good = true ∧ s.cout.width ≤ A.name_.length) ∨
      (s.cout.good = false ∧ A.name_ = "")) ∧
    (s.cout.good = true → (A.name_.length : Int) < s.cout.width →
      (s.print_name a).cout.out = s.cout.out ++
        (if s.cout.left then
          A.name_ ++ ostream_fill (s.cout.width - A.name_.length).toNat s.cout.fill
         else ostream_fill (s.cout.width - A.name_.length).toNat s.cout.fill ++ A.name_)) ∧
    (s.cout.good = false → (s.print_name a).cout = s.cout) := by
  have h : (s.print_name a).cout = s.cout.insert A.name_ := print_name_cout s a A hA
  have hfit : s.cout.good = true → s.cout.width ≤ A.name_.length →
      (s.print_name a).cout.out = s.cout.out ++ A.name_ := by
    intro hg hw
    rw [h, insert_fits s.cout A.name_ hg hw]
  have hlen : ∀ t : String, (0 : Int) ≤ t.length := fun t => Int.ofNat_nonneg _
  refine ⟨h, print_name_heap s a, ?_, ?_, ?_, ?_, ?_, ?_⟩
  · intro hg hw
    refine ⟨hfit hg hw, ?_⟩
    rw [hfit hg hw, String.data_append]
  · intro hg hw e
    rw [hfit hg (Int.le_trans hw (hlen _)), e]
  · intro hg hw e
    rw [hfit hg (Int.le_trans hw (hlen _)), e, String.append_empty]
  · rw [h]
    exact insert_out_iff s.cout A.name_
  · intro hg hw
    rw [h]
    exact insert_pads s.cout A.name_ hg hw
  · intro hg
    rw [h]
    exact insert_not_good s.cout A.name_ hg

theorem print_name_appends_witness :
    State.node
      { heap := [{ obj := { name_ := "Alice", colleague_ := none }, use_count := 1 }],
        cout := { out := "Bob", width := 0, fill := ' ', left := false, good := true } } 0
      = some { name_ := "Alice", colleague_ := none } ∧
    (State.print_name
      { heap := [{ obj := { name_ := "Alice", colleague_ := none }, use_count := 1 }],
        cout := { out := "Bob", width := 0, fill := ' ', left := false, good := true } }
      0).cout.out = "BobAlice" :=
  ⟨by decide,
   ((print_name_appends
      { heap := [{ obj := { name_ := "Alice", colleague_ := none }, use_count := 1 }],
        cout := { out := "Bob", width := 0, fill := ' ', left := false, good := true } }
      0 { name_ := "Alice", colleague_ := none } (by decide)).2.2.1 rfl (by decide)).1⟩

/-- C4 as first stated fails.  With the field width of standard output set to 10,
`print_name` on the node named "Alice" writes five fill characters before the name; on a
stream that is not in a good state it writes nothing at all. -/
theorem print_name_appends_counterexample :
    (State.print_name
      { heap := [{ obj := { name_ := "Alice", colleague_ := none }, use_count := 1 }],
        cout := { out := "", width := 10, fill := ' ', left := false, good := true } }
      0).cout.out = "     Alice" ∧
    (State.print_name
      { heap := [{ obj := { name_ := "Alice", colleague_ := none }, use_count := 1 }],
        cout := { out := "", width := 10, fill := ' ', left := false, good := true } }
      0).cout.out ≠ "" ++ "Alice" ∧
    (State.print_name
      { heap := [{ obj := { name_ := "Alice", colleague_ := none }, use_count := 1 }],
        cout := { out := "", width := 0, fill := ' ', left := false, good := false } }
      0).cout.out = "" ∧
    (State.print_name
      { heap := [{ obj := { name_ := "Alice", colleague_ := none }, use_count := 1 }],
        cout := { out := "", width := 0, fill := ' ', left := false, good := false } }
      0).cout.out ≠ "" ++ "Alice" := by
  decide

/-- C7: `main` writes nothing to standard output.  Whatever the output stream holds when
`main` starts, it holds the same when `main` returns; started from the empty stream,
`main` ends with the empty stream.  The rest of the stream state is untouched as well. -/
theorem main_writes_nothing :
    (∀ s : State, (main s).cout.out = s.cout.out) ∧
    (∀ s : State, (main_body s).1.cout.out = s.cout.out) ∧
    (main State.init).cout.out = "" ∧
    (∀ s : State, (main s).cout = s.cout) :=
  ⟨fun s => congrArg Ostream.out (main_cout s), fun s => by
    simp only [main_body, State.new_Person_name, State.new_Person, release_cout,
      set_colleague_cout, acquire_cout], congrArg Ostream.out (main_cout State.init),
    main_cout⟩

/-- C10 (amended): the default constructor `Person()` is equivalent to
`Person("", null)`: the literal `0` passed as the colleague is the null reference, so the
node has the empty name and a null colleague.  `print_name` on a default-constructed node
writes no characters exactly when the field width of standard output is not positive
(it is `0` unless the caller has set one) or the stream is not in a good state; on a good
stream with a positive width it writes that many fill characters. -/
theorem new_default_equiv :
    Person.new_default = Person.new "" nullptr ∧
    Person.new_default = Person.new_name "" ∧
    Person.new_default.name_ = "" ∧
    Person.new_default.colleague_ = none ∧
    (∀ s : State, s.new_Person_default = s.new_Person "" nullptr) ∧
    (∀ s : State, (s.new_Person_default).1.node s.heap.length
      = some { name_ := "", colleague_ := none }) ∧
    (∀ cout : Ostream,
      (Person.new_default.print_name cout).out = cout.out ↔
        cout.good = false ∨ cout.width ≤ 0) ∧
    (∀ s : State,
      ((s.new_Person_default).1.print_name s.heap.length).cout.out = s.cout.out ↔
        s.cout.good = false ∨ s.cout.width ≤ 0) ∧
    (∀ s : State, s.cout.good = true → 0 < s.cout.width →
      ((s.new_Person_default).1.print_name s.heap.length).cout.out
        = s.cout.out ++ ostream_fill s.cout.width.toNat s.cout.fill) := by
  have hn : ∀ s : State, (s.new_Person_default).1.node s.heap.length
      = some { name_ := "", colleague_ := none } := fun s => new_Person_node_new s "" nullptr
  have hp : ∀ s : State, ((s.new_Person_default).1.print_name s.heap.length).cout
      = s.cout.insert "" := fun s =>
    print_name_cout (s.new_Person_default).1 s.heap.length _ (hn s)
  refine ⟨rfl, rfl, rfl, rfl, fun _ => rfl, hn, fun cout => insert_empty_out_iff cout, ?_, ?_⟩
  · intro s
    rw [hp s]
    exact insert_empty_out_iff s.cout
  · intro s hg hw
    rw [hp s]
    exact insert_empty_pads s.cout hg hw

/-- C10 as first stated fails in its last part.  With the field width of standard output
set to 3 and the fill character `*`, `print_name` on a default-constructed node writes
three fill characters. -/
theorem new_default_equiv_counterexample :
    ((State.new_Person_default
        { heap := [],
          cout := { out := "", width := 3, fill := '*', left := false, good := true } }).1.print_name
      0).cout.out = "***" ∧
    ((State.new_Person_default
        { heap := [],
          cout := { out := "", width := 3, fill := '*', left := false, good := true } }).1.print_name
      0).cout.out ≠ "" := by
  decide

end CppTickets
